import Mathlib

/-!
A shallow embedding of the custom-pizza pricing and availability engine of the
pizza-ordering storefront (client `src/client/src/App.jsx`, server entry
`src/server/src/server.js`), together with proofs of the specification's
claims about it.  Currency amounts are modelled as exact rationals; JS string
operations (`toLowerCase`, `includes`, truthiness of strings) are modelled on
Lean `String`s; a JS value that may be `undefined` is modelled as an `Option`;
a computation that can throw is modelled as an `Option` result.
-/

namespace PizzaApp

/-- A catalog variant as delivered by `GET /api/customize`: `id`, `name`,
`price` and the server-computed `disabled` flag. -/
structure Variant where
  id : String
  name : String
  price : ℚ
  disabled : Bool
deriving DecidableEq

/-- The builder catalog (`opts` in `CustomBuilder`): one variant list per
category. -/
structure Catalog where
  bases : List Variant
  sauces : List Variant
  cheeses : List Variant
  veggies : List Variant
deriving DecidableEq

/-- The per-slot density settings of a composition (`sel.density`).  The
pricing code reads these defensively (`sel.density || {}` and
`String(v || 'normal')`), so each field is modelled as possibly absent. -/
structure Density where
  sauce : Option String
  cheese : Option String
  toppings : Option String
deriving DecidableEq

/-- The builder selection state (`sel` in `CustomBuilder`).  An unselected
slot is the empty string, as in the initial React state. -/
structure Sel where
  base : String
  sauce : String
  cheese : String
  veggies : List String
  density : Density
  toppingLevels : List (String × String)
deriving DecidableEq

/-- JS `String.prototype.toLowerCase` on the ASCII identifiers and level
names this program uses: lowercase every character. -/
def toLowerCase (s : String) : String :=
  ⟨s.data.map Char.toLower⟩

/-- `const find = (arr, id) => arr.find(x => x.id === id)?.price || 0`
(App.jsx line 435): the price of the variant with the given id, or 0 when no
variant of the category matches. -/
def find (arr : List Variant) (id : String) : ℚ :=
  ((arr.find? (fun x => x.id == id)).map Variant.price).getD 0

/-- `const norm = (v) => String(v || 'normal').toLowerCase()` (line 442):
a missing or empty density level defaults to `'normal'`; otherwise the level
is lowercased. -/
def norm (v : Option String) : String :=
  match v with
  | none => "normal"
  | some s => if s == "" then "normal" else toLowerCase s

/-- `const mult = (amt) => { const a = norm(amt); return (a==='low'||a==='light') ? 1 : (a==='extra' ? 3 : 2) }`
(lines 443-446): the density multiplier. -/
def mult (amt : Option String) : ℚ :=
  let a := norm amt
  if a == "low" || a == "light" then 1 else if a == "extra" then 3 else 2

/-- `const level = sel.toppingLevels?.[id] ?? d.toppings ?? 'normal'`
(line 452): a veggie's own override when present, else the global toppings
density, else `'normal'`. -/
def levelOf (sel : Sel) (id : String) : String :=
  match (sel.toppingLevels.find? (fun p => p.1 == id)).map Prod.snd with
  | some l => l
  | none =>
    match sel.density.toppings with
    | some t => t
    | none => "normal"

/-- `(sel.veggies || []).reduce((sum, id) => sum + price * mult(level), 0)`
(lines 450-454): the total veggie contribution. -/
def vegTotal (opts : Catalog) (sel : Sel) : ℚ :=
  sel.veggies.foldl
    (fun sum id => sum + find opts.veggies id * mult (some (levelOf sel id))) 0

/-- `const total = 2 + base + sauceP * mSauce + cheeseP * mCheese + vegTotal`
(line 456): the unrounded custom-pizza total. -/
def rawTotal (opts : Catalog) (sel : Sel) : ℚ :=
  2 + find opts.bases sel.base
    + find opts.sauces sel.sauce * mult sel.density.sauce
    + find opts.cheeses sel.cheese * mult sel.density.cheese
    + vegTotal opts sel

/-- `Number(q.toFixed(2))` on an exact rational: round to the nearest multiple
of 1/100, a tie rounding away from zero (ECMA-262 `toFixed` extracts the sign
and picks the larger candidate at a tie). -/
def toFixed2 (q : ℚ) : ℚ :=
  if q < 0 then -((Int.floor (100 * (-q) + 1/2) : ℚ) / 100)
  else (Int.floor (100 * q + 1/2) : ℚ) / 100

/-- `setPrice(Number(total.toFixed(2)))` (line 457): the price displayed by
the builder (the `price` state of `CustomBuilder`). -/
def clientPrice (opts : Catalog) (sel : Sel) : ℚ :=
  toFixed2 (rawTotal opts sel)

/-- All prices of a catalog are non-negative (§3 of the spec: `price` is a
non-negative currency amount). -/
def catNonneg (c : Catalog) : Prop :=
  (∀ v ∈ c.bases, 0 ≤ v.price) ∧ (∀ v ∈ c.sauces, 0 ≤ v.price) ∧
  (∀ v ∈ c.cheeses, 0 ≤ v.price) ∧ (∀ v ∈ c.veggies, 0 ≤ v.price)

/-! ## Availability rule (admin `CatTable`, App.jsx lines 896-898) -/

/-- A row of the admin variant-inventory editor: `stock` and `threshold` are
the non-negative integers the claim quantifies over. -/
structure InvRow where
  id : String
  name : String
  stock : ℕ
  threshold : ℕ
deriving DecidableEq

/-- `const disabled = Number(r.stock||0) < Number(r.threshold||0)`
(App.jsx line 897). -/
def isDisabled (r : InvRow) : Bool :=
  r.stock < r.threshold

/-! ## Builder add-to-cart gating (App.jsx lines 488-494) -/

/-- `opts.xxx?.find(v => v.id===id)?.disabled`, coerced by JS truthiness:
an id that matches no variant is not disabled. -/
def lookupDisabled (arr : List Variant) (id : String) : Bool :=
  ((arr.find? (fun v => v.id == id)).map Variant.disabled).getD false

/-- `selectedDisabled` (lines 488-492): some selected slot or veggie refers
to a disabled variant.  An unselected slot (empty string, JS-falsy) is
skipped. -/
def selectedDisabled (opts : Catalog) (sel : Sel) : Bool :=
  ((sel.base != "") && lookupDisabled opts.bases sel.base) ||
  ((sel.sauce != "") && lookupDisabled opts.sauces sel.sauce) ||
  ((sel.cheese != "") && lookupDisabled opts.cheeses sel.cheese) ||
  (sel.veggies.any (fun id => lookupDisabled opts.veggies id))

/-- `const canAdd = sel.base && sel.sauce && sel.cheese && !selectedDisabled`
(line 494); the add-to-cart button is `disabled={!canAdd}` (line 637). -/
def canAdd (opts : Catalog) (sel : Sel) : Bool :=
  (sel.base != "") && (sel.sauce != "") && (sel.cheese != "") &&
    !(selectedDisabled opts sel)

/-! ## Cart (App.jsx lines 1257-1263, 1305-1307, 1426-1428) -/

/-- A menu pizza record (`_id` modelled as `id`). -/
structure Pizza where
  id : String
  name : String
  price : ℚ
deriving DecidableEq

/-- One cart line: either a menu pizza with a quantity, or a custom
composition with its pre-computed price and a quantity. -/
inductive CartLine where
  | menu (pizza : Pizza) (quantity : ℕ)
  | custom (sel : Sel) (price : ℚ) (quantity : ℕ)
deriving DecidableEq

/-- `addToCart` (lines 1257-1263):
`const i = c.findIndex((x) => x.pizza._id === pizza._id)`, then either bump
that line's quantity or append a fresh line of quantity 1.  A custom line has
no `pizza` field, so evaluating the `findIndex` predicate on it reads
`._id` of `undefined` and throws a `TypeError`; a thrown update is modelled
as `none`.  `findIndex` stops at the first match, so a custom line is only
reached (and only throws) when no earlier line matches. -/
def addToCart (p : Pizza) : List CartLine → Option (List CartLine)
  | [] => some [CartLine.menu p 1]
  | CartLine.menu pz q :: rest =>
    if pz.id == p.id then some (CartLine.menu pz (q + 1) :: rest)
    else (addToCart p rest).map (fun r => CartLine.menu pz q :: r)
  | CartLine.custom _ _ _ :: _ => none

/-- `addCustomToCart` (lines 1305-1307):
`setCart((c) => [...c, { custom, price: computedPrice, quantity: 1 }])`. -/
def addCustomToCart (sel : Sel) (computedPrice : ℚ) (c : List CartLine) :
    List CartLine :=
  c ++ [CartLine.custom sel computedPrice 1]

/-- A cart line's quantity. -/
def quantity : CartLine → ℕ
  | CartLine.menu _ q => q
  | CartLine.custom _ _ q => q

/-- `it.pizza ? it.pizza.price : it.price` (line 1356): a line's unit price
in USD. -/
def lineUnitUsd : CartLine → ℚ
  | CartLine.menu pz _ => pz.price
  | CartLine.custom _ pr _ => pr

/-! ## Checkout conversion (App.jsx lines 10-12, 1356-1368) -/

/-- `VITE_USD_TO_INR` default `'83'` (line 10). -/
def USD_TO_INR : ℚ := 83

/-- `VITE_MARKET_ADJ` default `'0.20'` (line 11). -/
def MARKET_ADJ : ℚ := 1/5

/-- `const adjToINR = (usd) => Number(usd || 0) * USD_TO_INR * MARKET_ADJ`
(line 12). -/
def adjToINR (usd : ℚ) : ℚ := usd * USD_TO_INR * MARKET_ADJ

/-- `const cartUsdTotal = cart.reduce((s, it) => s + (it.pizza ? it.pizza.price : it.price) * it.quantity, 0)`
(line 1356). -/
def cartUsdTotal (c : List CartLine) : ℚ :=
  c.foldl (fun s it => s + lineUnitUsd it * quantity it) 0

/-- `const cartInrTotal = inrNumber(cartUsdTotal)` (line 1357), posted as
`amount` to the checkout endpoint (line 1367). -/
def postedAmount (c : List CartLine) : ℚ := adjToINR (cartUsdTotal c)

/-- `currency: 'INR'` (line 1366). -/
def postedCurrency : String := "INR"

/-! ## Payment verification outcome (App.jsx lines 1400-1417) -/

/-- The user-facing result state set by `payNow`: `success` closes the flow,
`error` renders the retry UI (`PaymentStatus` with a Try-again button). -/
inductive PayStatus where
  | success
  | error
deriving DecidableEq

/-- The cart and surfaced status after the gateway modal returns
(lines 1400-1417).  `gatewayFailed` is `result?.error`; `verify` is the
outcome of `api.payment.verify({ orderId })`: `some true` when it resolved
with `success: true`, `some false` when it resolved without, `none` when it
threw.  Only the `v?.success` branch runs `setCart([])`. -/
def afterGateway (gatewayFailed : Bool) (verify : Option Bool)
    (cart : List CartLine) : List CartLine × PayStatus :=
  if gatewayFailed then (cart, PayStatus.error)
  else
    match verify with
    | some true => ([], PayStatus.success)
    | some false => (cart, PayStatus.error)
    | none => (cart, PayStatus.error)

/-! ## Vegan-cheese filter (App.jsx lines 419-431) -/

/-- `pat.isPrefixOf l` over characters, structurally. -/
def startsWithChars : List Char → List Char → Bool
  | [], _ => true
  | _ :: _, [] => false
  | p :: ps, c :: cs => p == c && startsWithChars ps cs

/-- JS `String.prototype.includes` on character lists: `pat` occurs
contiguously somewhere in the list. -/
def containsChars (pat : List Char) : List Char → Bool
  | [] => startsWithChars pat []
  | c :: cs => startsWithChars pat (c :: cs) || containsChars pat cs

/-- `String(x || '').toLowerCase().includes('vegan')` (lines 424-426). -/
def hasVegan (s : String) : Bool :=
  containsChars "vegan".data (toLowerCase s).data

/-- The cheese filter applied to the raw `/api/customize` payload
(lines 421-428): drop every cheese whose id or name contains `'vegan'`
case-insensitively. -/
def filterCheeses (raw : List Variant) : List Variant :=
  raw.filter (fun ch => !(hasVegan ch.id) && !(hasVegan ch.name))

/-- `setOpts(filtered)` (line 429): the catalog the builder actually uses. -/
def loadOpts (raw : Catalog) : Catalog :=
  { raw with cheeses := filterCheeses raw.cheeses }

/-! ## Server-side pricing engine, modelled from the spec

`src/server/src/server.js` only mounts `require('./routes/orders')`
(line 42); the route module that recomputes the authoritative price at
order-creation time is part of this repository but not under `src/`.  It is
modelled here from the spec, §4.3. -/

/-- Modelled from the spec: the density multiplier table of §4.3 step 2
(`low|light → 1`, `extra → 3`, anything else → `2`) as evaluated by the
server-side pricing route (`routes/orders.js`, not under `src/`). -/
def serverMult (level : String) : ℚ :=
  if level == "low" || level == "light" then 1
  else if level == "extra" then 3 else 2

/-- Modelled from the spec: §4.3 step 5's level choice for a veggie — "the
veggie's own override if present, else the composition's global topping
density, else `normal`" — as evaluated by the server-side pricing route
(not under `src/`). -/
def serverLevel (sel : Sel) (id : String) : String :=
  match (sel.toppingLevels.find? (fun p => p.1 == id)).map Prod.snd with
  | some l => l
  | none =>
    match sel.density.toppings with
    | some t => t
    | none => "normal"

/-- Modelled from the spec: §4.3 steps 1-6 — base/sauce/cheese prices looked
up with 0 for an unmatched id, sauce and cheese scaled by their density
multipliers (a composition slot with no stored density counts as `normal`),
veggie contributions summed, plus the flat build fee `2` — as computed by the
server-side pricing route (not under `src/`). -/
def serverRawTotal (cat : Catalog) (sel : Sel) : ℚ :=
  2 + find cat.bases sel.base
    + find cat.sauces sel.sauce * serverMult (sel.density.sauce.getD "normal")
    + find cat.cheeses sel.cheese * serverMult (sel.density.cheese.getD "normal")
    + sel.veggies.foldl
        (fun sum id => sum + find cat.veggies id * serverMult (serverLevel sel id)) 0

/-- Modelled from the spec: §4.3 step 7, "round the result to 2 decimal
places (half-up at the cent boundary)", as applied by the server-side pricing
route (not under `src/`). -/
def serverRound2 (q : ℚ) : ℚ :=
  (Int.floor (100 * q + 1/2) : ℚ) / 100

/-- Modelled from the spec: the server-side authoritative price of a custom
composition (§4.3, evaluated at order-creation time; not under `src/`). -/
def serverPrice (cat : Catalog) (sel : Sel) : ℚ :=
  serverRound2 (serverRawTotal cat sel)

/-- An absent or already-lowercase string. -/
def lowerOpt : Option String → Bool
  | none => true
  | some s => toLowerCase s == s

/-- The density strings of a selection are already lowercase (the builder UI
only ever stores `'low'`, `'normal'` or `'extra'`). -/
def lowercaseSel (sel : Sel) : Bool :=
  lowerOpt sel.density.sauce && lowerOpt sel.density.cheese &&
  lowerOpt sel.density.toppings &&
  sel.toppingLevels.all (fun p => toLowerCase p.2 == p.2)

/-! ## Concrete data used by the witnesses -/

/-- A small catalog: one base, one sauce, one cheese, one veggie. -/
def demoCat : Catalog :=
  ⟨[⟨"b1", "Thin crust", 100, false⟩],
   [⟨"s1", "Tomato", 20, false⟩],
   [⟨"c1", "Mozzarella", 30, false⟩],
   [⟨"v1", "Mushroom", 10, false⟩]⟩

/-- A complete selection over `demoCat` with one veggie at `extra`. -/
def demoSel : Sel :=
  ⟨"b1", "s1", "c1", ["v1"],
   ⟨some "normal", some "normal", some "normal"⟩, [("v1", "extra")]⟩

/-- A menu pizza. -/
def demoPizza : Pizza := ⟨"p1", "Margherita", 10⟩

/-! ## Helper lemmas -/

/-- A left fold that only adds contributions equals the starting value plus
the sum of the mapped list. -/
theorem foldl_add_eq_sum {α : Type} (f : α → ℚ) :
    ∀ (l : List α) (a : ℚ), l.foldl (fun s x => s + f x) a = a + (l.map f).sum := by
  intro l
  induction l with
  | nil => intro a; simp
  | cons x xs ih =>
    intro a
    simp only [List.foldl_cons, List.map_cons, List.sum_cons, ih]
    ring

/-- An unmatched id yields price 0. -/
theorem find_eq_zero_of_not_found (arr : List Variant) (id : String)
    (h : arr.find? (fun x => x.id == id) = none) : find arr id = 0 := by
  unfold find
  rw [h]
  rfl

/-- `find` returns a non-negative price over a non-negative catalog
category. -/
theorem find_nonneg (arr : List Variant) (id : String)
    (h : ∀ v ∈ arr, 0 ≤ v.price) : 0 ≤ find arr id := by
  unfold find
  cases hf : arr.find? (fun x => x.id == id) with
  | none => simp
  | some v =>
    simp only [Option.map_some', Option.getD_some]
    exact h v (List.mem_of_find?_eq_some hf)

/-- The density multiplier is positive. -/
theorem mult_pos (amt : Option String) : 0 < mult amt := by
  simp only [mult]
  split
  · norm_num
  · split <;> norm_num

/-- The unrounded total of a non-negative catalog is non-negative. -/
theorem rawTotal_nonneg (opts : Catalog) (sel : Sel) (h : catNonneg opts) :
    0 ≤ rawTotal opts sel := by
  obtain ⟨hb, hs, hc, hv⟩ := h
  unfold rawTotal vegTotal
  rw [foldl_add_eq_sum]
  have hvs : 0 ≤ (sel.veggies.map
      (fun id => find opts.veggies id * mult (some (levelOf sel id)))).sum := by
    apply List.sum_nonneg
    intro q hq
    obtain ⟨id, _, rfl⟩ := List.mem_map.mp hq
    exact mul_nonneg (find_nonneg _ _ hv) (le_of_lt (mult_pos _))
  have h1 := find_nonneg opts.bases sel.base hb
  have h2 := mul_nonneg (find_nonneg opts.sauces sel.sauce hs)
    (le_of_lt (mult_pos sel.density.sauce))
  have h3 := mul_nonneg (find_nonneg opts.cheeses sel.cheese hc)
    (le_of_lt (mult_pos sel.density.cheese))
  linarith

/-! ## Claim theorems -/

/-- C2: the density multiplier is total over all string inputs: it returns 1
for `'low'` and `'light'`, 3 for `'extra'`, and 2 for every other value
including `'normal'` and unrecognized strings; the code lowercases its input
first and defaults a missing input to `'normal'`. -/
theorem mult_density_table :
    mult (some "low") = 1 ∧ mult (some "light") = 1 ∧
    mult (some "extra") = 3 ∧ mult (some "normal") = 2 ∧ mult none = 2 ∧
    mult (some "LOW") = 1 ∧ mult (some "") = 2 ∧
    ∀ s : String, toLowerCase s ≠ "low" → toLowerCase s ≠ "light" →
      toLowerCase s ≠ "extra" → mult (some s) = 2 := by
  refine ⟨by decide, by decide, by decide, by decide, by decide,
    by decide, by decide, ?_⟩
  intro s h1 h2 h3
  by_cases hs : s = ""
  · subst hs; decide
  · have hs' : (s == "") = false := beq_eq_false_iff_ne.mpr hs
    have e1 : (toLowerCase s == "low") = false := beq_eq_false_iff_ne.mpr h1
    have e2 : (toLowerCase s == "light") = false := beq_eq_false_iff_ne.mpr h2
    have e3 : (toLowerCase s == "extra") = false := beq_eq_false_iff_ne.mpr h3
    simp [mult, PizzaApp.norm, hs', e1, e2, e3]

/-- C4: a variant row of the inventory editor is disabled exactly when its
stock is strictly below its threshold; at the boundary `stock = threshold`
it is not disabled. -/
theorem isDisabled_iff_stock_lt_threshold :
    ∀ r : InvRow,
      (isDisabled r = true ↔ r.stock < r.threshold) ∧
      (r.stock = r.threshold → isDisabled r = false) := by
  intro r
  constructor
  · simp [isDisabled]
  · intro h
    simp [isDisabled, h]

/-- C7: once the payment gateway step completes without a gateway error, a
verification call reporting success clears the cart and surfaces success;
a verification call reporting failure, or throwing, leaves the cart
unchanged and surfaces the retryable error state. -/
theorem verify_outcome_cart :
    ∀ (cart : List CartLine) (verify : Option Bool),
      afterGateway false (some true) cart = ([], PayStatus.success) ∧
      (verify ≠ some true →
        afterGateway false verify cart = (cart, PayStatus.error)) := by
  intro cart verify
  constructor
  · rfl
  · intro h
    cases verify with
    | none => rfl
    | some b =>
      cases b with
      | false => rfl
      | true => exact absurd rfl h

/-- C9: the amount posted to the checkout endpoint is the cart's USD total
scaled by `USD_TO_INR × MARKET_ADJ = 83 × 0.20 = 16.6`, sent with currency
`'INR'`; whenever the cart total is non-zero the posted amount differs from
the plain sum of the per-line prices. -/
theorem posted_amount_scaled :
    ∀ c : List CartLine,
      cartUsdTotal c = (c.map (fun it => lineUnitUsd it * quantity it)).sum ∧
      postedAmount c = cartUsdTotal c * (83/5) ∧
      postedCurrency = "INR" ∧
      (cartUsdTotal c ≠ 0 → postedAmount c ≠ cartUsdTotal c) := by
  intro c
  refine ⟨?_, ?_, rfl, ?_⟩
  · unfold cartUsdTotal
    rw [foldl_add_eq_sum (fun it => lineUnitUsd it * quantity it) c 0]
    ring
  · unfold postedAmount adjToINR USD_TO_INR MARKET_ADJ
    ring
  · intro h heq
    apply h
    unfold postedAmount adjToINR USD_TO_INR MARKET_ADJ at heq
    have h78 : cartUsdTotal c * (78/5) = 0 := by linarith
    rcases mul_eq_zero.mp h78 with h0 | h0
    · exact h0
    · norm_num at h0

/-- C1: for every catalog and composition, the displayed custom-pizza price
is `round2(2 + basePrice + saucePrice·mult(sauceDensity) +
cheesePrice·mult(cheeseDensity) + Σ veggiePrice·mult(level))`, with a veggie's
level taken from its own override, else the global toppings density, else
`'normal'`, and an id that matches no variant of its category contributing
price 0. -/
theorem clientPrice_formula :
    ∀ (opts : Catalog) (sel : Sel),
      clientPrice opts sel =
        toFixed2 (2 + find opts.bases sel.base
          + find opts.sauces sel.sauce * mult sel.density.sauce
          + find opts.cheeses sel.cheese * mult sel.density.cheese
          + (sel.veggies.map
              (fun id => find opts.veggies id * mult (some (levelOf sel id)))).sum) ∧
      (∀ (arr : List Variant) (id : String),
        arr.find? (fun x => x.id == id) = none → find arr id = 0) ∧
      (∀ (id : String) (pr : String × String),
        sel.toppingLevels.find? (fun p => p.1 == id) = some pr →
          levelOf sel id = pr.2) ∧
      (∀ id : String,
        sel.toppingLevels.find? (fun p => p.1 == id) = none →
          levelOf sel id = sel.density.toppings.getD "normal") := by
  intro opts sel
  refine ⟨?_, find_eq_zero_of_not_found, ?_, ?_⟩
  · unfold clientPrice rawTotal vegTotal
    rw [foldl_add_eq_sum]
    ring_nf
  · intro id pr h
    simp [levelOf, h]
  · intro id h
    cases hto : sel.density.toppings <;> simp [levelOf, h, hto]

/-- C3: over a catalog of non-negative prices, the displayed price is the
unrounded total rounded to a whole number of cents, half-up: it is an
integer multiple of 1/100 lying in `(total - 1/200, total + 1/200]`, so a
tie at exactly half a cent rounds up (away from zero, the total being
non-negative). -/
theorem clientPrice_half_up :
    ∀ (opts : Catalog) (sel : Sel), catNonneg opts →
      (∃ n : ℤ, clientPrice opts sel = (n : ℚ) / 100) ∧
      rawTotal opts sel - 1/200 < clientPrice opts sel ∧
      clientPrice opts sel ≤ rawTotal opts sel + 1/200 := by
  intro opts sel h
  have h0 : 0 ≤ rawTotal opts sel := rawTotal_nonneg opts sel h
  have hcp : clientPrice opts sel =
      (Int.floor (100 * rawTotal opts sel + 1/2) : ℚ) / 100 := by
    unfold clientPrice toFixed2
    rw [if_neg (not_lt.mpr h0)]
  have hle : ((Int.floor (100 * rawTotal opts sel + 1/2) : ℤ) : ℚ) ≤
      100 * rawTotal opts sel + 1/2 := Int.floor_le _
  have hlt : 100 * rawTotal opts sel + 1/2 <
      ((Int.floor (100 * rawTotal opts sel + 1/2) : ℤ) : ℚ) + 1 :=
    Int.lt_floor_add_one _
  refine ⟨⟨Int.floor (100 * rawTotal opts sel + 1/2), hcp⟩, ?_, ?_⟩
  · rw [hcp]; linarith
  · rw [hcp]; linarith

/-- Witness for C3 at the concrete catalog `demoCat` and selection
`demoSel`. -/
theorem clientPrice_half_up_witness :
    (∃ n : ℤ, clientPrice demoCat demoSel = (n : ℚ) / 100) ∧
    rawTotal demoCat demoSel - 1/200 < clientPrice demoCat demoSel ∧
    clientPrice demoCat demoSel ≤ rawTotal demoCat demoSel + 1/200 :=
  clientPrice_half_up demoCat demoSel (by unfold catNonneg; decide)

/-- C10: after the builder loads the catalog, its cheese list contains no
variant whose id or name contains `'vegan'` case-insensitively; consequently
a composition whose cheese id contains `'vegan'` finds no cheese in the
loaded catalog and its cheese lookup contributes price 0. -/
theorem builder_cheeses_vegan_free :
    ∀ raw : Catalog,
      (∀ ch ∈ (loadOpts raw).cheeses,
        hasVegan ch.id = false ∧ hasVegan ch.name = false) ∧
      ∀ sel : Sel, hasVegan sel.cheese = true →
        find (loadOpts raw).cheeses sel.cheese = 0 := by
  intro raw
  constructor
  · intro ch hch
    have hp := (List.mem_filter.mp hch).2
    simp only [Bool.and_eq_true, Bool.not_eq_true'] at hp
    exact hp
  · intro sel hveg
    show find (filterCheeses raw.cheeses) sel.cheese = 0
    unfold find
    cases hf : (filterCheeses raw.cheeses).find? (fun x => x.id == sel.cheese) with
    | none => rfl
    | some v =>
      exfalso
      have hmem := List.mem_of_find?_eq_some hf
      have hid : v.id = sel.cheese := by
        have := List.find?_some hf
        simpa using this
      have hp := (List.mem_filter.mp hmem).2
      simp only [Bool.and_eq_true, Bool.not_eq_true'] at hp
      rw [hid, hveg] at hp
      exact Bool.false_ne_true hp.1.symm

/-- Witness for C10: the loaded cheese list of a catalog whose raw payload
carries a vegan cheese is vegan-free, and a selection of that vegan cheese
contributes 0. -/
theorem builder_cheeses_vegan_free_witness :
    (∀ ch ∈ (loadOpts ⟨[], [], [⟨"veganMozzarella", "Vegan Mozzarella", 4, false⟩,
        ⟨"c1", "Mozzarella", 3, false⟩], []⟩).cheeses,
      hasVegan ch.id = false ∧ hasVegan ch.name = false) ∧
    find (loadOpts ⟨[], [], [⟨"veganMozzarella", "Vegan Mozzarella", 4, false⟩,
        ⟨"c1", "Mozzarella", 3, false⟩], []⟩).cheeses "veganMozzarella" = 0 :=
  ⟨(builder_cheeses_vegan_free _).1,
   (builder_cheeses_vegan_free _).2
     ⟨"", "", "veganMozzarella", [], ⟨none, none, none⟩, []⟩ (by decide)⟩

/-- C5: the add-to-cart transition of the builder is enabled exactly when
base, sauce and cheese are all selected and none of the selected variants
(base, sauce, cheese, or any selected veggie) is disabled in the loaded
catalog. -/
theorem canAdd_iff :
    ∀ (opts : Catalog) (sel : Sel),
      canAdd opts sel = true ↔
        sel.base ≠ "" ∧ sel.sauce ≠ "" ∧ sel.cheese ≠ "" ∧
        lookupDisabled opts.bases sel.base = false ∧
        lookupDisabled opts.sauces sel.sauce = false ∧
        lookupDisabled opts.cheeses sel.cheese = false ∧
        ∀ id ∈ sel.veggies, lookupDisabled opts.veggies id = false := by
  intro opts sel
  simp only [canAdd, selectedDisabled, Bool.and_eq_true, bne_iff_ne,
    Bool.not_eq_true', Bool.or_eq_false_iff, Bool.and_eq_false_iff,
    List.any_eq_false, bne_eq_false_iff_eq]
  constructor
  · rintro ⟨⟨⟨hb, hs⟩, hc⟩, ⟨⟨⟨h1, h2⟩, h3⟩, h4⟩⟩
    refine ⟨hb, hs, hc, ?_, ?_, ?_,
      fun id hid => Bool.eq_false_iff.mpr (h4 id hid)⟩
    · rcases h1 with h | h
      · exact absurd h hb
      · exact h
    · rcases h2 with h | h
      · exact absurd h hs
      · exact h
    · rcases h3 with h | h
      · exact absurd h hc
      · exact h
  · rintro ⟨hb, hs, hc, h1, h2, h3, h4⟩
    exact ⟨⟨⟨hb, hs⟩, hc⟩, ⟨⟨⟨Or.inr h1, Or.inr h2⟩, Or.inr h3⟩,
      fun id hid => Bool.eq_false_iff.mp (h4 id hid)⟩⟩

/-- C6 (evidence of the code bug): adding a menu pizza to a cart that
already holds a custom line throws (`x.pizza._id` with `x.pizza` undefined),
modelled as `none`; on a cart free of custom lines the merge behaviour the
claim describes does hold: two successive adds of the same pizza starting
from the empty cart produce the single line of quantity 2. -/
theorem addToCart_throws_on_custom_line :
    addToCart demoPizza [CartLine.custom demoSel 5 1] = none ∧
    addToCart demoPizza [] = some [CartLine.menu demoPizza 1] ∧
    addToCart demoPizza [CartLine.menu demoPizza 1] =
      some [CartLine.menu demoPizza 2] ∧
    addCustomToCart demoSel 5 [CartLine.custom demoSel 5 1] =
      [CartLine.custom demoSel 5 1, CartLine.custom demoSel 5 1] := by
  refine ⟨rfl, rfl, ?_, rfl⟩
  show (if (demoPizza.id == demoPizza.id) = true then _ else _) = _
  rw [if_pos (beq_self_eq_true demoPizza.id)]

/-- On an already-lowercase string the client multiplier and the
spec-modelled server multiplier agree. -/
theorem mult_eq_serverMult (s : String) (h : toLowerCase s = s) :
    mult (some s) = serverMult s := by
  by_cases hs : s = ""
  · subst hs; decide
  · have hs' : (s == "") = false := beq_eq_false_iff_ne.mpr hs
    simp only [mult, PizzaApp.norm, hs', Bool.false_eq_true, if_false, h,
      serverMult]

/-- The spec-modelled server level choice coincides with the client's. -/
theorem serverLevel_eq_levelOf (sel : Sel) (id : String) :
    serverLevel sel id = levelOf sel id := rfl

/-- Under the lowercase hypotheses the level chosen for a veggie is a
lowercase string. -/
theorem levelOf_lowercase (sel : Sel) (id : String)
    (ht : lowerOpt sel.density.toppings = true)
    (hl : sel.toppingLevels.all (fun p => toLowerCase p.2 == p.2) = true) :
    toLowerCase (levelOf sel id) = levelOf sel id := by
  unfold levelOf
  cases hf : sel.toppingLevels.find? (fun p => p.1 == id) with
  | some pr =>
    simp only [Option.map_some']
    have hmem := List.mem_of_find?_eq_some hf
    have := List.all_eq_true.mp hl pr hmem
    simpa using this
  | none =>
    simp only [Option.map_none']
    cases hto : sel.density.toppings with
    | some t =>
      rw [hto] at ht
      simpa [lowerOpt] using ht
    | none => decide

/-- Folding two pointwise-equal accumulation functions gives the same
result. -/
theorem foldl_congr_mem {α : Type} (f g : ℚ → α → ℚ) :
    ∀ (l : List α) (a : ℚ), (∀ b x, x ∈ l → f b x = g b x) →
      l.foldl f a = l.foldl g a := by
  intro l
  induction l with
  | nil => intro a _; rfl
  | cons x xs ih =>
    intro a h
    simp only [List.foldl_cons]
    rw [h a x (List.mem_cons_self x xs)]
    exact ih _ (fun b y hy => h b y (List.mem_cons_of_mem x hy))

/-- On a non-negative argument `Number(q.toFixed(2))` and the spec's
half-up cent rounding coincide. -/
theorem toFixed2_eq_serverRound2 (q : ℚ) (h : 0 ≤ q) :
    toFixed2 q = serverRound2 q := by
  unfold toFixed2 serverRound2
  rw [if_neg (not_lt.mpr h)]

/-- C8: over any catalog of non-negative prices and any composition whose
stored density strings are lowercase (as the builder UI produces), the
client-side interactive price and the spec-modelled server-side
order-creation price coincide exactly. -/
theorem client_server_price_agree :
    ∀ (cat : Catalog) (sel : Sel), catNonneg cat → lowercaseSel sel = true →
      clientPrice cat sel = serverPrice cat sel := by
  intro cat sel hcat hlow
  have hlow' := hlow
  unfold lowercaseSel at hlow'
  simp only [Bool.and_eq_true] at hlow'
  obtain ⟨⟨⟨h1, h2⟩, h3⟩, h4⟩ := hlow'
  have hsauce : mult sel.density.sauce =
      serverMult (sel.density.sauce.getD "normal") := by
    cases hd : sel.density.sauce with
    | none => decide
    | some s =>
      rw [hd] at h1
      have hls : toLowerCase s = s := by simpa [lowerOpt] using h1
      simpa using mult_eq_serverMult s hls
  have hcheese : mult sel.density.cheese =
      serverMult (sel.density.cheese.getD "normal") := by
    cases hd : sel.density.cheese with
    | none => decide
    | some s =>
      rw [hd] at h2
      have hls : toLowerCase s = s := by simpa [lowerOpt] using h2
      simpa using mult_eq_serverMult s hls
  have hraw : rawTotal cat sel = serverRawTotal cat sel := by
    unfold rawTotal serverRawTotal vegTotal
    rw [hsauce, hcheese]
    congr 1
    apply foldl_congr_mem
    intro b id _
    rw [serverLevel_eq_levelOf,
      mult_eq_serverMult _ (levelOf_lowercase sel id h3 h4)]
  have h0 : 0 ≤ serverRawTotal cat sel := hraw ▸ rawTotal_nonneg cat sel hcat
  unfold clientPrice serverPrice
  rw [hraw, toFixed2_eq_serverRound2 _ h0]

/-- Witness for C8 at the concrete catalog `demoCat` and selection
`demoSel`. -/
theorem client_server_price_agree_witness :
    clientPrice demoCat demoSel = serverPrice demoCat demoSel :=
  client_server_price_agree demoCat demoSel (by unfold catNonneg; decide)
    (by decide)

end PizzaApp
